import Mathlib

/-!
Verification of the oncepleg CRI inspection tool.

The tool connects to a CRI-compatible container runtime, aggregates the
runtime's pod sandboxes and containers into a deduplicated pod set
(`_getPods` in runtime-service.go), and reports per-entity statuses
(`_getPodStatus`).  This file gives a shallow embedding of the data model
and the pure logic of these operations and proves the specified
properties about them.

Modelling conventions:
* Go `map[string]string` label sets become association lists
  `List (String × String)` with `List.lookup`; the `pods` accumulation
  map of `_getPods` becomes an insertion-ordered association list
  `List (String × Pod)` (Go map iteration order is unspecified, the
  ordered list is one admissible order).
* Fallible RPC calls become `Except String _` values; the gRPC transport
  itself is external, so listing results are parameters (for `_getPods`)
  or fields of an abstract `RuntimeClient` record (for `_getPodStatus`,
  where the identity of the listing being called matters).
* klog logging is pure diagnostics and is dropped.
-/

set_option autoImplicit false

namespace Oncepleg

/-! ## helper.go -/

def KubernetesPodNameLabel : String := "io.kubernetes.pod.name"

def KubernetesPodNamespaceLabel : String := "io.kubernetes.pod.namespace"

def KubernetesPodUIDLabel : String := "io.kubernetes.pod.uid"

def KubernetesContainerNameLabel : String := "io.kubernetes.container.name"

structure labeledContainerInfo where
  ContainerName : String
  PodName : String
  PodNamespace : String
  PodUID : String
  deriving Repr, DecidableEq

/-- helper.go `getStringValueFromLabel`: look the label up, fall back to
the empty string when absent (the Go code logs a diagnostic in that case
and explicitly does not report an error). -/
def getStringValueFromLabel (labels : List (String × String)) (label : String) : String :=
  match labels.lookup label with
  | some value => value
  | none => ""

/-- helper.go `getContainerInfoFromLabels`: project a label set to the
structured identity record. -/
def getContainerInfoFromLabels (labels : List (String × String)) : labeledContainerInfo :=
  { PodName := getStringValueFromLabel labels KubernetesPodNameLabel
    PodNamespace := getStringValueFromLabel labels KubernetesPodNamespaceLabel
    PodUID := getStringValueFromLabel labels KubernetesPodUIDLabel
    ContainerName := getStringValueFromLabel labels KubernetesContainerNameLabel }

/-! ## CRI data model (k8s.io/cri-api runtime/v1alpha2, the fields the
tool reads) -/

structure PodSandboxMetadata where
  Name : String
  Uid : String
  Namespace : String
  Attempt : Nat
  deriving Repr, DecidableEq

structure PodSandbox where
  Id : String
  Metadata : Option PodSandboxMetadata
  Labels : List (String × String)
  deriving Repr, DecidableEq

structure ContainerMetadata where
  Name : String
  Attempt : Nat
  deriving Repr, DecidableEq

structure Container where
  Id : String
  Metadata : Option ContainerMetadata
  Labels : List (String × String)
  deriving Repr, DecidableEq

/-- runtime-service.go `Pod`: a group of containers, identified by the
pod UID. -/
structure Pod where
  ID : String
  Name : String
  Namespace : String
  deriving Repr, DecidableEq

/-! ## runtime-service.go `_getPods` -/

/-- Body of the sandbox loop of `_getPods` (lines 106-120): skip a
sandbox without metadata, otherwise seed a `Pod` from the sandbox
metadata unless the pod UID is already present. -/
def addSandbox (pods : List (String × Pod)) (s : PodSandbox) : List (String × Pod) :=
  match s.Metadata with
  | none => pods
  | some md =>
    let podUID := md.Uid
    if (pods.lookup podUID).isSome then pods
    else pods ++ [(podUID, { ID := podUID, Name := md.Name, Namespace := md.Namespace })]

/-- Body of the container loop of `_getPods` (lines 126-143): skip a
container without metadata, otherwise seed a `Pod` from the
label-derived identity unless the pod UID is already present. -/
def addContainer (pods : List (String × Pod)) (c : Container) : List (String × Pod) :=
  match c.Metadata with
  | none => pods
  | some _ =>
    let labelledInfo := getContainerInfoFromLabels c.Labels
    if (pods.lookup labelledInfo.PodUID).isSome then pods
    else pods ++ [(labelledInfo.PodUID,
      { ID := labelledInfo.PodUID, Name := labelledInfo.PodName,
        Namespace := labelledInfo.PodNamespace })]

/-- runtime-service.go `_getPods` (lines 100-152).  The two listing
results stand for the outcomes of `getKubeletSandboxs("", true)` and
`getKubeletContainers("", true)`; a listing failure is returned
unchanged and yields no pod set. -/
def _getPods (sandboxListing : Except String (List PodSandbox))
    (containerListing : Except String (List Container)) : Except String (List Pod) :=
  match sandboxListing with
  | .error err => .error err
  | .ok sandboxes =>
    let pods := sandboxes.foldl addSandbox []
    match containerListing with
    | .error err => .error err
    | .ok containers =>
      let pods₂ := containers.foldl addContainer pods
      .ok (pods₂.map Prod.snd)

/-- The pod UIDs contributed by the metadata of the sandboxes in a
listing (sandboxes without metadata contribute nothing). -/
def sandboxUIDs (sandboxes : List PodSandbox) : List String :=
  sandboxes.filterMap fun s => s.Metadata.map (·.Uid)

/-- The pod UIDs contributed by the label-derived identity of the
containers in a listing (containers without metadata contribute
nothing). -/
def containerUIDs (containers : List Container) : List String :=
  containers.filterMap fun c =>
    c.Metadata.map fun _ => (getContainerInfoFromLabels c.Labels).PodUID

/-! ## Proof-side views of the two seeding loops

Both loops of `_getPods` have the same shape: each entry either yields
no pod (metadata absent) or a candidate `Pod`, inserted keyed by its
`ID` unless that key is already present.  `sandboxPod` / `containerPod`
compute the candidate, and `seedFold` is the common loop; bridging
lemmas below identify the two `foldl`s of `_getPods` with `seedFold`. -/

/-- The `Pod` a sandbox seeds (lines 112-118): `none` when metadata is
absent. -/
def sandboxPod (s : PodSandbox) : Option Pod :=
  s.Metadata.map fun md => { ID := md.Uid, Name := md.Name, Namespace := md.Namespace }

/-- The `Pod` a container seeds (lines 133-141): `none` when metadata is
absent, otherwise built from the label-derived identity only. -/
def containerPod (c : Container) : Option Pod :=
  c.Metadata.map fun _ =>
    let info := getContainerInfoFromLabels c.Labels
    { ID := info.PodUID, Name := info.PodName, Namespace := info.PodNamespace }

/-- Common step of the two seeding loops. -/
def seedStep {α : Type} (f : α → Option Pod) (pods : List (String × Pod)) (x : α) :
    List (String × Pod) :=
  match f x with
  | none => pods
  | some p => if (pods.lookup p.ID).isSome then pods else pods ++ [(p.ID, p)]

/-- Common shape of the two seeding loops of `_getPods`. -/
def seedFold {α : Type} (f : α → Option Pod) (pods : List (String × Pod)) (xs : List α) :
    List (String × Pod) :=
  xs.foldl (seedStep f) pods

/-! ## Concrete fixtures (used by witnesses) -/

/-- Sandbox of the spec scenario: pod `p1`, name `nginx`, namespace
`default`, metadata present. -/
def sampleSandbox : PodSandbox :=
  { Id := "sb1"
    Metadata := some { Name := "nginx", Uid := "p1", Namespace := "default", Attempt := 0 }
    Labels := [] }

/-- Container of the spec scenario: labels identify pod `p2` /
`redis` / `default`, metadata present. -/
def sampleContainer : Container :=
  { Id := "ct1"
    Metadata := some { Name := "app", Attempt := 0 }
    Labels := [(KubernetesPodUIDLabel, "p2"), (KubernetesPodNameLabel, "redis"),
      (KubernetesPodNamespaceLabel, "default")] }

/-- A container whose labels carry the same pod UID `p1` as
`sampleSandbox` but a different name and namespace. -/
def sampleContainerSameUID : Container :=
  { Id := "ct2"
    Metadata := some { Name := "app", Attempt := 0 }
    Labels := [(KubernetesPodUIDLabel, "p1"), (KubernetesPodNameLabel, "other"),
      (KubernetesPodNamespaceLabel, "ns2")] }

/-- A container with metadata present and an empty label map. -/
def unlabeledContainer : Container :=
  { Id := "ct3", Metadata := some { Name := "x", Attempt := 0 }, Labels := [] }

/-- Same container identity and labels as `metadataVariantB`, different
metadata contents. -/
def metadataVariantA : Container :=
  { Id := "ct4"
    Metadata := some { Name := "appA", Attempt := 0 }
    Labels := [(KubernetesPodUIDLabel, "p9")] }

/-- Same container identity and labels as `metadataVariantA`, different
metadata contents. -/
def metadataVariantB : Container :=
  { Id := "ct4"
    Metadata := some { Name := "appB", Attempt := 7 }
    Labels := [(KubernetesPodUIDLabel, "p9")] }

/-! ## Runtime client facade (runtime-service.go)

The gRPC transport is an external collaborator; `RuntimeClient` records
the outcome of each of the four RPC capabilities the code calls.  The
per-entity status responses only ever get logged, so a status fetch is
modelled by its success or failure. -/

def unixProtocol : String := "unix"

inductive PodSandboxState where
  | SANDBOX_READY
  | SANDBOX_NOTREADY
  deriving Repr, DecidableEq

inductive ContainerState where
  | CONTAINER_CREATED
  | CONTAINER_RUNNING
  | CONTAINER_EXITED
  | CONTAINER_UNKNOWN
  deriving Repr, DecidableEq

structure PodSandboxFilter where
  LabelSelector : Option (List (String × String))
  State : Option PodSandboxState
  deriving Repr, DecidableEq

structure ContainerFilter where
  LabelSelector : Option (List (String × String))
  State : Option ContainerState
  deriving Repr, DecidableEq

structure RuntimeClient where
  ListPodSandbox : PodSandboxFilter → Except String (List PodSandbox)
  ListContainers : ContainerFilter → Except String (List Container)
  PodSandboxStatus : String → Except String Unit
  ContainerStatus : String → Except String Unit

/-- runtime-service.go `getKubeletSandboxs` (lines 226-251): build the
filter (label selector on the pod-UID label when a UID is given, a
ready-state constraint when `all` is false) and issue `ListPodSandbox`. -/
def getKubeletSandboxs (rs : RuntimeClient) (podUID : String) (all : Bool) :
    Except String (List PodSandbox) :=
  let filter : PodSandboxFilter := { LabelSelector := none, State := none }
  let filter := if podUID != "" then
      { filter with LabelSelector := some [(KubernetesPodUIDLabel, podUID)] }
    else filter
  let filter := if !all then
      { filter with State := some PodSandboxState.SANDBOX_READY }
    else filter
  rs.ListPodSandbox filter

/-- runtime-service.go `getKubeletContainers` (lines 253-277): same
filter shape, with a running-state constraint when `all` is false. -/
def getKubeletContainers (rs : RuntimeClient) (podUID : String) (all : Bool) :
    Except String (List Container) :=
  let filter : ContainerFilter := { LabelSelector := none, State := none }
  let filter := if podUID != "" then
      { filter with LabelSelector := some [(KubernetesPodUIDLabel, podUID)] }
    else filter
  let filter := if !all then
      { filter with State := some ContainerState.CONTAINER_RUNNING }
    else filter
  rs.ListContainers filter

/-- runtime-service.go `getPodSandboxStatus` (lines 208-224): the RPC
error is returned; a successful status is only logged. -/
def getPodSandboxStatus (rs : RuntimeClient) (sandboxID : String) : Except String Unit :=
  rs.PodSandboxStatus sandboxID

/-- runtime-service.go `getContainerStatus` (lines 191-206). -/
def getContainerStatus (rs : RuntimeClient) (containerID : String) : Except String Unit :=
  rs.ContainerStatus containerID

/-- Observable effect of one `_getPodStatus` run: the entity IDs whose
status fetch was attempted, first loop then second loop, in order. -/
structure PodStatusReport where
  sandboxStatusFetches : List String
  containerStatusFetches : List String
  deriving Repr, DecidableEq

/-- First loop of `_getPodStatus` (lines 161-170): fetch the pod-sandbox
status of each listed entry; a failure is logged and the loop continues
with the next entry.  The loop ranges over `Container`s because the
listing feeding it is `getKubeletContainers` (see `_getPodStatus`). -/
def sandboxStatusLoop (rs : RuntimeClient) : List Container → List String
  | [] => []
  | sandbox :: rest =>
    match getPodSandboxStatus rs sandbox.Id with
    | .error _ => sandbox.Id :: sandboxStatusLoop rs rest
    | .ok _ => sandbox.Id :: sandboxStatusLoop rs rest

/-- Second loop of `_getPodStatus` (lines 177-186): same
continue-on-failure policy for container statuses. -/
def containerStatusLoop (rs : RuntimeClient) : List Container → List String
  | [] => []
  | c :: rest =>
    match getContainerStatus rs c.Id with
    | .error _ => c.Id :: containerStatusLoop rs rest
    | .ok _ => c.Id :: containerStatusLoop rs rest

/-- runtime-service.go `_getPodStatus` (lines 154-189), faithful to the
source: both step-1 listing calls invoke `getKubeletContainers` (the
first one stands under the comment "get sandbox by uid" and feeds
`getPodSandboxStatus`), a listing failure is returned, and per-entity
status failures only continue their loop. -/
def _getPodStatus (rs : RuntimeClient) (uid name ns : String) :
    Except String PodStatusReport :=
  match getKubeletContainers rs uid true with
  | .error err => .error err
  | .ok sandboxes =>
    let sandboxFetches :=
      if sandboxes.length != 0 then sandboxStatusLoop rs sandboxes else []
    match getKubeletContainers rs uid true with
    | .error err => .error err
    | .ok containers =>
      let containerFetches :=
        if containers.length != 0 then containerStatusLoop rs containers else []
      .ok { sandboxStatusFetches := sandboxFetches
            containerStatusFetches := containerFetches }

/-! ## Client setup (runtime-service.go `newRuntimeServiceClient`) -/

structure URL where
  Scheme : String
  Path : String
  deriving Repr, DecidableEq

/-- Handle for an established gRPC connection (external); it remembers
the address it was dialed to. -/
structure GrpcConn where
  addr : String
  deriving Repr, DecidableEq

structure runtimeService where
  Client : GrpcConn
  Timeout : Nat
  deriving Repr, DecidableEq

/-- runtime-service.go `getAddressAndDialer` (lines 61-71).  `url.Parse`
is Go standard-library code, so its outcome is the parameter; the
returned dialer function value (`dial`, a closure over
`net.DialTimeout`) is external and not modelled, the returned dial
address is. -/
def getAddressAndDialer (parsedEndpoint : Except String URL) : Except String String :=
  match parsedEndpoint with
  | .error err => .error err
  | .ok u =>
    if u.Scheme ≠ unixProtocol then .error "only support unix socket endpoint"
    else .ok u.Path

/-- runtime-service.go `newRuntimeServiceClient` (lines 39-59): a
`getAddressAndDialer` failure or a gRPC dial failure is returned and no
client is produced; otherwise the client wraps the connection dialed to
the resolved address. -/
def newRuntimeServiceClient (parsedEndpoint : Except String URL)
    (dialContext : String → Except String GrpcConn) (connectionTimeout : Nat) :
    Except String runtimeService :=
  match getAddressAndDialer parsedEndpoint with
  | .error err => .error err
  | .ok addr =>
    match dialContext addr with
    | .error err => .error err
    | .ok conn => .ok { Client := conn, Timeout := connectionTimeout }

/-! ## Runtime-client fixtures (used by witnesses) -/

/-- A runtime whose container listing holds two containers and whose
status RPCs fail for one entity in each loop. -/
def failingStatusClient : RuntimeClient :=
  { ListPodSandbox := fun _ => .ok []
    ListContainers := fun _ =>
      .ok [{ Id := "ct1", Metadata := some { Name := "a", Attempt := 0 }, Labels := [] },
        { Id := "ct2", Metadata := some { Name := "b", Attempt := 0 }, Labels := [] }]
    PodSandboxStatus := fun id => if id = "ct1" then .error "rpc error" else .ok ()
    ContainerStatus := fun id => if id = "ct2" then .error "rpc error" else .ok () }

/-- A runtime whose sandbox listing always fails while its container
listing succeeds. -/
def brokenSandboxClient : RuntimeClient :=
  { ListPodSandbox := fun _ => .error "sandbox rpc down"
    ListContainers := fun _ =>
      .ok [{ Id := "ct1", Metadata := some { Name := "a", Attempt := 0 }, Labels := [] }]
    PodSandboxStatus := fun _ => .ok ()
    ContainerStatus := fun _ => .ok () }

/-! ## Claims C5 and C6 -/

theorem getStringValueFromLabel_eq_getD (labels : List (String × String)) (label : String) :
    getStringValueFromLabel labels label = (labels.lookup label).getD "" := by
  unfold getStringValueFromLabel
  cases labels.lookup label <;> rfl

/-- C5: for every label map, `getContainerInfoFromLabels` is total (a
Lean function) and each of the four fields equals the value of its
well-known key when present and `""` when absent. -/
theorem getContainerInfoFromLabels_total (labels : List (String × String)) :
    (getContainerInfoFromLabels labels).PodName = (labels.lookup KubernetesPodNameLabel).getD "" ∧
    (getContainerInfoFromLabels labels).PodNamespace
      = (labels.lookup KubernetesPodNamespaceLabel).getD "" ∧
    (getContainerInfoFromLabels labels).PodUID = (labels.lookup KubernetesPodUIDLabel).getD "" ∧
    (getContainerInfoFromLabels labels).ContainerName
      = (labels.lookup KubernetesContainerNameLabel).getD "" := by
  refine ⟨?_, ?_, ?_, ?_⟩ <;>
    simp [getContainerInfoFromLabels, getStringValueFromLabel_eq_getD]

/-- C6: a failure of either listing aborts `_getPods`: the error is
returned to the caller unchanged and no pod list (not even a partial
one) is produced. -/
theorem getPods_listing_failure :
    (∀ (err : String) (containerListing : Except String (List Container)),
      _getPods (.error err) containerListing = .error err) ∧
    (∀ (err : String) (sandboxes : List PodSandbox),
      _getPods (.ok sandboxes) (.error err) = .error err) := by
  constructor
  · intro err containerListing
    rfl
  · intro err sandboxes
    rfl

/-! ## Association-list lemmas -/

theorem lookup_append_of_isSome {β : Type} (m l : List (String × β)) (k : String)
    (h : (m.lookup k).isSome) : (m ++ l).lookup k = m.lookup k := by
  induction m with
  | nil => simp [List.lookup] at h
  | cons kp t ih =>
    obtain ⟨a, b⟩ := kp
    simp only [List.cons_append, List.lookup]
    cases hk : k == a with
    | true => rfl
    | false =>
      simp only [List.lookup, hk] at h
      exact ih h

theorem lookup_append_of_eq_none {β : Type} (m l : List (String × β)) (k : String)
    (h : m.lookup k = none) : (m ++ l).lookup k = l.lookup k := by
  induction m with
  | nil => rfl
  | cons kp t ih =>
    obtain ⟨a, b⟩ := kp
    simp only [List.cons_append, List.lookup]
    cases hk : k == a with
    | true => simp [List.lookup, hk] at h
    | false =>
      simp only [List.lookup, hk] at h
      exact ih h

theorem lookup_isSome_iff_mem_keys {β : Type} (m : List (String × β)) (k : String) :
    (m.lookup k).isSome ↔ k ∈ m.map Prod.fst := by
  induction m with
  | nil => simp [List.lookup]
  | cons kp t ih =>
    obtain ⟨a, b⟩ := kp
    simp only [List.lookup, List.map_cons, List.mem_cons]
    cases hk : k == a with
    | true => simp [eq_of_beq hk]
    | false =>
      have hne : k ≠ a := by
        intro he
        subst he
        simp at hk
      simp [ih, hne]

theorem mem_of_lookup_eq_some {β : Type} {m : List (String × β)} {k : String} {b : β}
    (h : m.lookup k = some b) : (k, b) ∈ m := by
  induction m with
  | nil => simp [List.lookup] at h
  | cons kp t ih =>
    obtain ⟨a, b'⟩ := kp
    simp only [List.lookup] at h
    cases hk : k == a with
    | true =>
      simp only [hk] at h
      obtain rfl := eq_of_beq hk
      obtain rfl : b' = b := by injection h
      exact List.mem_cons_self _ _
    | false =>
      simp only [hk] at h
      exact List.mem_cons_of_mem _ (ih h)

theorem lookup_eq_of_mem_of_nodup {β : Type} {m : List (String × β)} {k : String} {b : β}
    (hmem : (k, b) ∈ m) (hnd : (m.map Prod.fst).Nodup) : m.lookup k = some b := by
  induction m with
  | nil => simp at hmem
  | cons kp t ih =>
    obtain ⟨a, b'⟩ := kp
    simp only [List.map_cons, List.nodup_cons] at hnd
    rcases List.mem_cons.mp hmem with he | hmem'
    · obtain ⟨rfl, rfl⟩ := Prod.mk.injEq .. ▸ And.intro (congrArg Prod.fst he) (congrArg Prod.snd he)
      simp [List.lookup]
    · have hka : k ≠ a := by
        intro he
        subst he
        exact hnd.1 (List.mem_map.mpr ⟨(k, b), hmem', rfl⟩)
      have hk : (k == a) = false := beq_eq_false_iff_ne.mpr hka
      simp only [List.lookup, hk]
      exact ih hmem' hnd.2

theorem lookup_singleton {β : Type} (a k : String) (b : β) :
    List.lookup k [(a, b)] = if k = a then some b else none := by
  by_cases h : k = a
  · subst h
    simp [List.lookup_cons]
  · rw [List.lookup_cons, beq_eq_false_iff_ne.mpr h]
    simp [h]

/-! ## Lemmas about the seeding loops -/

theorem foldl_addSandbox_eq_seedFold (pods : List (String × Pod)) (sandboxes : List PodSandbox) :
    sandboxes.foldl addSandbox pods = seedFold sandboxPod pods sandboxes := by
  have h : addSandbox = seedStep sandboxPod := by
    funext m s
    cases hm : s.Metadata with
    | none => simp [addSandbox, seedStep, sandboxPod, hm]
    | some md => simp [addSandbox, seedStep, sandboxPod, hm]
  rw [h, seedFold]

theorem foldl_addContainer_eq_seedFold (pods : List (String × Pod)) (containers : List Container) :
    containers.foldl addContainer pods = seedFold containerPod pods containers := by
  have h : addContainer = seedStep containerPod := by
    funext m c
    cases hm : c.Metadata with
    | none => simp [addContainer, seedStep, containerPod, hm]
    | some md => simp [addContainer, seedStep, containerPod, hm]
  rw [h, seedFold]

theorem seedStep_lookup_isSome {α : Type} (f : α → Option Pod) (m : List (String × Pod))
    (x : α) (k : String) :
    ((seedStep f m x).lookup k).isSome
      ↔ ((m.lookup k).isSome ∨ ∃ p, f x = some p ∧ p.ID = k) := by
  cases hx : f x with
  | none => simp [seedStep, hx]
  | some p =>
    simp only [seedStep, hx]
    by_cases hp : (m.lookup p.ID).isSome
    · rw [if_pos hp]
      constructor
      · intro h
        exact Or.inl h
      · rintro (h | ⟨q, hq, hqk⟩)
        · exact h
        · obtain rfl : p = q := Option.some.inj hq
          exact hqk ▸ hp
    · rw [if_neg hp]
      by_cases hmk : (m.lookup k).isSome
      · rw [lookup_append_of_isSome _ _ _ hmk]
        simp [hmk]
      · have hnone : m.lookup k = none := Option.not_isSome_iff_eq_none.mp hmk
        rw [lookup_append_of_eq_none _ _ _ hnone, lookup_singleton]
        by_cases hk : k = p.ID
        · rw [if_pos hk]
          simp only [Option.isSome_some, true_iff]
          exact Or.inr ⟨p, rfl, hk.symm⟩
        · rw [if_neg hk]
          simp only [Option.isSome_none, Bool.false_eq_true, false_iff]
          rintro (h | ⟨q, hq, hqk⟩)
          · exact hmk h
          · obtain rfl : p = q := Option.some.inj hq
            exact hk hqk.symm

theorem seedFold_lookup_preserve {α : Type} (f : α → Option Pod) (m : List (String × Pod))
    (xs : List α) (k : String) (p : Pod) (h : m.lookup k = some p) :
    (seedFold f m xs).lookup k = some p := by
  induction xs generalizing m with
  | nil => exact h
  | cons x xs ih =>
    apply ih
    cases hx : f x with
    | none => simpa [seedStep, hx] using h
    | some q =>
      simp only [seedStep, hx]
      by_cases hq : (m.lookup q.ID).isSome
      · rwa [if_pos hq]
      · rw [if_neg hq]
        rw [lookup_append_of_isSome _ _ _ (h ▸ Option.isSome_some)]
        exact h

theorem seedFold_lookup_isSome {α : Type} (f : α → Option Pod) (m : List (String × Pod))
    (xs : List α) (k : String) :
    ((seedFold f m xs).lookup k).isSome
      ↔ ((m.lookup k).isSome ∨ k ∈ xs.filterMap fun x => (f x).map Pod.ID) := by
  induction xs generalizing m with
  | nil => simp [seedFold]
  | cons x xs ih =>
    have hstep : seedFold f m (x :: xs) = seedFold f (seedStep f m x) xs := rfl
    rw [hstep, ih, seedStep_lookup_isSome]
    cases hx : f x with
    | none => simp [hx]
    | some p =>
      simp only [List.filterMap_cons, hx, Option.map_some', List.mem_cons]
      constructor
      · rintro ((h | ⟨q, hq, hqk⟩) | h)
        · exact Or.inl h
        · obtain rfl : p = q := Option.some.inj hq
          exact Or.inr (Or.inl hqk.symm)
        · exact Or.inr (Or.inr h)
      · rintro (h | h | h)
        · exact Or.inl (Or.inl h)
        · exact Or.inl (Or.inr ⟨p, rfl, h.symm⟩)
        · exact Or.inr h

theorem seedFold_mem {α : Type} (f : α → Option Pod) (m : List (String × Pod)) (xs : List α)
    (kp : String × Pod) (h : kp ∈ seedFold f m xs) :
    kp ∈ m ∨ ∃ x ∈ xs, f x = some kp.2 ∧ kp.1 = kp.2.ID := by
  induction xs generalizing m with
  | nil => exact Or.inl h
  | cons x xs ih =>
    have hstep : seedFold f m (x :: xs) = seedFold f (seedStep f m x) xs := rfl
    rw [hstep] at h
    rcases ih _ h with hmem | ⟨y, hy, hfy⟩
    · cases hx : f x with
      | none =>
        simp only [seedStep, hx] at hmem
        exact Or.inl hmem
      | some p =>
        simp only [seedStep, hx] at hmem
        by_cases hp : (m.lookup p.ID).isSome
        · rw [if_pos hp] at hmem
          exact Or.inl hmem
        · rw [if_neg hp] at hmem
          simp only [List.mem_append, List.mem_singleton] at hmem
          rcases hmem with hmem | rfl
          · exact Or.inl hmem
          · exact Or.inr ⟨x, List.mem_cons_self _ _, hx, rfl⟩
    · exact Or.inr ⟨y, List.mem_cons_of_mem _ hy, hfy⟩

theorem seedFold_keys_nodup {α : Type} (f : α → Option Pod) (m : List (String × Pod))
    (xs : List α) (hnd : (m.map Prod.fst).Nodup) :
    ((seedFold f m xs).map Prod.fst).Nodup := by
  induction xs generalizing m with
  | nil => exact hnd
  | cons x xs ih =>
    have hstep : seedFold f m (x :: xs) = seedFold f (seedStep f m x) xs := rfl
    rw [hstep]
    apply ih
    cases hx : f x with
    | none => simpa [seedStep, hx] using hnd
    | some p =>
      simp only [seedStep, hx]
      by_cases hp : (m.lookup p.ID).isSome
      · rwa [if_pos hp]
      · rw [if_neg hp]
        simp only [List.map_append, List.map_cons, List.map_nil]
        rw [List.nodup_append]
        refine ⟨hnd, List.nodup_singleton _, ?_⟩
        intro a ha hb
        simp only [List.mem_singleton] at hb
        subst hb
        exact hp ((lookup_isSome_iff_mem_keys m p.ID).mpr ha)

theorem seedFold_id_eq_key {α : Type} (f : α → Option Pod) (m : List (String × Pod))
    (xs : List α) (hinv : ∀ kp ∈ m, (kp : String × Pod).2.ID = kp.1) :
    ∀ kp ∈ seedFold f m xs, (kp : String × Pod).2.ID = kp.1 := by
  intro kp hkp
  rcases seedFold_mem f m xs kp hkp with hmem | ⟨x, _, _, hk⟩
  · exact hinv kp hmem
  · exact hk.symm

theorem seedFold_filter {α : Type} (f : α → Option Pod) (P : α → Bool)
    (hP : ∀ x, P x = false → f x = none) (m : List (String × Pod)) (xs : List α) :
    seedFold f m (xs.filter P) = seedFold f m xs := by
  induction xs generalizing m with
  | nil => rfl
  | cons x xs ih =>
    cases hx : P x with
    | true =>
      rw [List.filter_cons_of_pos hx]
      exact ih (seedStep f m x)
    | false =>
      rw [List.filter_cons_of_neg (by simp [hx])]
      have hnone : f x = none := hP x hx
      have hstep : seedStep f m x = m := by simp [seedStep, hnone]
      calc seedFold f m (xs.filter P) = seedFold f m xs := ih m
        _ = seedFold f (seedStep f m x) xs := by rw [hstep]

theorem seedFold_congr {α β : Type} (f : α → Option Pod) (g : β → Option Pod)
    (xs : List α) (ys : List β) (hfg : List.Forall₂ (fun x y => f x = g y) xs ys)
    (m : List (String × Pod)) : seedFold f m xs = seedFold g m ys := by
  induction hfg generalizing m with
  | nil => rfl
  | @cons x y xs' ys' hxy htl ih =>
    have hstep : seedStep f m x = seedStep g m y := by
      simp only [seedStep, hxy]
    calc seedFold f m (x :: xs') = seedFold f (seedStep f m x) xs' := rfl
      _ = seedFold g (seedStep f m x) ys' := ih _
      _ = seedFold g (seedStep g m y) ys' := by rw [hstep]
      _ = seedFold g m (y :: ys') := rfl

/-! ## Characterisation of `_getPods` on successful listings -/

theorem getPods_ok (S : List PodSandbox) (C : List Container) :
    _getPods (.ok S) (.ok C)
      = .ok ((seedFold containerPod (seedFold sandboxPod [] S) C).map Prod.snd) := by
  have h : _getPods (.ok S) (.ok C)
      = .ok ((C.foldl addContainer (S.foldl addSandbox [])).map Prod.snd) := rfl
  rw [h, foldl_addSandbox_eq_seedFold, foldl_addContainer_eq_seedFold]

theorem filterMap_sandboxPod_ID (sandboxes : List PodSandbox) :
    (sandboxes.filterMap fun s => (sandboxPod s).map Pod.ID) = sandboxUIDs sandboxes := by
  unfold sandboxUIDs
  apply List.filterMap_congr
  intro s _
  cases hms : s.Metadata <;> simp [sandboxPod, hms]

theorem filterMap_containerPod_ID (containers : List Container) :
    (containers.filterMap fun c => (containerPod c).map Pod.ID) = containerUIDs containers := by
  unfold containerUIDs
  apply List.filterMap_congr
  intro c _
  cases hmc : c.Metadata <;> simp [containerPod, hmc]

theorem getPods_id_eq_key (S : List PodSandbox) (C : List Container) :
    ∀ kp ∈ seedFold containerPod (seedFold sandboxPod [] S) C,
      (kp : String × Pod).2.ID = kp.1 :=
  seedFold_id_eq_key _ _ _ (seedFold_id_eq_key _ _ _ (by simp))

theorem getPods_keys_nodup (S : List PodSandbox) (C : List Container) :
    ((seedFold containerPod (seedFold sandboxPod [] S) C).map Prod.fst).Nodup :=
  seedFold_keys_nodup _ _ _ (seedFold_keys_nodup _ _ _ (by simp))

theorem getPods_resultIDs (S : List PodSandbox) (C : List Container) :
    ((seedFold containerPod (seedFold sandboxPod [] S) C).map Prod.snd).map Pod.ID
      = (seedFold containerPod (seedFold sandboxPod [] S) C).map Prod.fst := by
  rw [List.map_map]
  exact List.map_congr_left (getPods_id_eq_key S C)

/-- The result of a successful `_getPods`: pod IDs are duplicate-free
and are exactly the union of the two UID sources. -/
theorem getPods_result_spec (S : List PodSandbox) (C : List Container) (res : List Pod)
    (h : _getPods (.ok S) (.ok C) = .ok res) :
    (res.map Pod.ID).Nodup ∧
      ∀ u, u ∈ res.map Pod.ID ↔ (u ∈ sandboxUIDs S ∨ u ∈ containerUIDs C) := by
  rw [getPods_ok] at h
  obtain rfl : res = _ := (Except.ok.inj h).symm
  constructor
  · rw [getPods_resultIDs]
    exact getPods_keys_nodup S C
  · intro u
    rw [getPods_resultIDs, ← lookup_isSome_iff_mem_keys, seedFold_lookup_isSome,
      filterMap_containerPod_ID, seedFold_lookup_isSome, filterMap_sandboxPod_ID]
    simp [or_assoc]

/-! ## Claims about `_getPods` -/

/-- C1: for every sandbox listing `S` and container listing `C` on which
`_getPods` succeeds, the result has exactly one `Pod` per distinct pod
UID (its ID list is duplicate-free) and the set of result pod IDs equals
the union of the metadata UIDs of `S` and the label-derived UIDs of
`C`. -/
theorem getPods_dedup (S : List PodSandbox) (C : List Container) (res : List Pod)
    (h : _getPods (.ok S) (.ok C) = .ok res) :
    (res.map Pod.ID).Nodup ∧
      ∀ u, u ∈ res.map Pod.ID ↔ (u ∈ sandboxUIDs S ∨ u ∈ containerUIDs C) :=
  getPods_result_spec S C res h

theorem getPods_dedup_witness :
    (([⟨"p1", "nginx", "default"⟩, ⟨"p2", "redis", "default"⟩] : List Pod).map Pod.ID).Nodup ∧
      ("p2" ∈ ([⟨"p1", "nginx", "default"⟩, ⟨"p2", "redis", "default"⟩] : List Pod).map Pod.ID
        ↔ ("p2" ∈ sandboxUIDs [sampleSandbox] ∨ "p2" ∈ containerUIDs [sampleContainer])) :=
  ⟨(getPods_dedup [sampleSandbox] [sampleContainer]
      [⟨"p1", "nginx", "default"⟩, ⟨"p2", "redis", "default"⟩] rfl).1,
    (getPods_dedup [sampleSandbox] [sampleContainer]
      [⟨"p1", "nginx", "default"⟩, ⟨"p2", "redis", "default"⟩] rfl).2 "p2"⟩

/-- C2: when a pod UID appears both among the sandbox-metadata UIDs and
among the container label-derived UIDs, a pod with that UID is in the
result and every result pod with that UID carries the name and namespace
of a sandbox of `S` (sandboxes are seeded first; the container loop
never overwrites an existing entry). -/
theorem getPods_seed_precedence (S : List PodSandbox) (C : List Container) (res : List Pod)
    (u : String) (h : _getPods (.ok S) (.ok C) = .ok res)
    (hs : u ∈ sandboxUIDs S) (hc : u ∈ containerUIDs C) :
    (∃ p, p ∈ res ∧ p.ID = u) ∧
      ∀ p, p ∈ res → p.ID = u →
        ∃ s, s ∈ S ∧ ∃ md, s.Metadata = some md ∧ md.Uid = u ∧
          p.Name = md.Name ∧ p.Namespace = md.Namespace := by
  rw [getPods_ok] at h
  obtain rfl : res = _ := (Except.ok.inj h).symm
  have h₁ : ((seedFold sandboxPod [] S).lookup u).isSome := by
    rw [seedFold_lookup_isSome, filterMap_sandboxPod_ID]
    simp [hs]
  obtain ⟨p₀, hp₀⟩ := Option.isSome_iff_exists.mp h₁
  have h₂ : (seedFold containerPod (seedFold sandboxPod [] S) C).lookup u = some p₀ :=
    seedFold_lookup_preserve _ _ _ _ _ hp₀
  have hmem₁ : (u, p₀) ∈ seedFold sandboxPod [] S := mem_of_lookup_eq_some hp₀
  have hprov : ∃ s, s ∈ S ∧ sandboxPod s = some p₀ ∧ u = p₀.ID := by
    rcases seedFold_mem _ _ _ _ hmem₁ with hnil | ⟨s, hsS, hfs, hk⟩
    · simp at hnil
    · exact ⟨s, hsS, hfs, hk⟩
  obtain ⟨s, hsS, hfs, hk⟩ := hprov
  obtain ⟨md, hmd, hpd⟩ : ∃ md, s.Metadata = some md
      ∧ p₀ = { ID := md.Uid, Name := md.Name, Namespace := md.Namespace } := by
    unfold sandboxPod at hfs
    cases hms : s.Metadata with
    | none => rw [hms] at hfs; simp at hfs
    | some md =>
      rw [hms] at hfs
      simp only [Option.map_some'] at hfs
      exact ⟨md, rfl, (Option.some.inj hfs).symm⟩
  constructor
  · refine ⟨p₀, List.mem_map.mpr ⟨(u, p₀), mem_of_lookup_eq_some h₂, rfl⟩, hk.symm⟩
  · intro p hp hpu
    obtain ⟨kp, hkp, hkp₂⟩ := List.mem_map.mp hp
    have hkey : kp.1 = u := by
      rw [← getPods_id_eq_key S C kp hkp, hkp₂, hpu]
    have hlook : (seedFold containerPod (seedFold sandboxPod [] S) C).lookup u = some p := by
      apply lookup_eq_of_mem_of_nodup _ (getPods_keys_nodup S C)
      have : kp = (u, p) := Prod.ext hkey hkp₂
      rwa [this] at hkp
    obtain rfl : p₀ = p := Option.some.inj (h₂.symm.trans hlook)
    refine ⟨s, hsS, md, hmd, ?_, ?_, ?_⟩
    · rw [hpd] at hk
      exact hk.symm
    · rw [hpd]
    · rw [hpd]

theorem getPods_seed_precedence_witness :
    (∃ p, p ∈ ([⟨"p1", "nginx", "default"⟩] : List Pod) ∧ p.ID = "p1") ∧
      ∀ p, p ∈ ([⟨"p1", "nginx", "default"⟩] : List Pod) → p.ID = "p1" →
        ∃ s, s ∈ [sampleSandbox] ∧ ∃ md, s.Metadata = some md ∧ md.Uid = "p1" ∧
          p.Name = md.Name ∧ p.Namespace = md.Namespace :=
  getPods_seed_precedence [sampleSandbox] [sampleContainerSameUID]
    [⟨"p1", "nginx", "default"⟩] "p1" rfl (by decide) (by decide)

/-- C7: entries without metadata contribute nothing: `_getPods` on the
original listings equals `_getPods` on the listings with the
metadata-less entries removed, and aggregation always succeeds on
successful listings (missing metadata never causes a failure). -/
theorem getPods_skip_missing_metadata (S : List PodSandbox) (C : List Container) :
    _getPods (.ok (S.filter fun s => s.Metadata.isSome))
        (.ok (C.filter fun c => c.Metadata.isSome)) = _getPods (.ok S) (.ok C) ∧
      ∃ res, _getPods (.ok S) (.ok C) = .ok res := by
  constructor
  · rw [getPods_ok, getPods_ok]
    have hs : seedFold sandboxPod [] (S.filter fun s => s.Metadata.isSome)
        = seedFold sandboxPod [] S := by
      apply seedFold_filter
      intro s hsnone
      cases hms : s.Metadata with
      | none => simp [sandboxPod, hms]
      | some md => rw [hms] at hsnone; simp at hsnone
    rw [hs]
    have hc : seedFold containerPod (seedFold sandboxPod [] S)
          (C.filter fun c => c.Metadata.isSome)
        = seedFold containerPod (seedFold sandboxPod [] S) C := by
      apply seedFold_filter
      intro c hcnone
      cases hmc : c.Metadata with
      | none => simp [containerPod, hmc]
      | some md => rw [hmc] at hcnone; simp at hcnone
    rw [hc]
  · rw [getPods_ok]
    exact ⟨_, rfl⟩

/-- C8: a container with metadata and an empty label map yields the
all-empty identity record, and the aggregated pod set contains exactly
one pod whose ID is the empty string. -/
theorem getPods_empty_labels (S : List PodSandbox) (C : List Container) (res : List Pod)
    (c : Container) (h : _getPods (.ok S) (.ok C) = .ok res) (hc : c ∈ C)
    (hm : c.Metadata.isSome = true) (hl : c.Labels = []) :
    getContainerInfoFromLabels c.Labels
        = { ContainerName := "", PodName := "", PodNamespace := "", PodUID := "" } ∧
      ∃ p, p ∈ res ∧ p.ID = "" ∧ ∀ q, q ∈ res → q.ID = "" → q = p := by
  constructor
  · rw [hl]
    rfl
  · have hmemUID : "" ∈ containerUIDs C := by
      unfold containerUIDs
      apply List.mem_filterMap.mpr
      refine ⟨c, hc, ?_⟩
      obtain ⟨md, hmd⟩ := Option.isSome_iff_exists.mp hm
      rw [hmd, hl]
      rfl
    obtain ⟨hnd, hiff⟩ := getPods_result_spec S C res h
    have hmem : "" ∈ res.map Pod.ID := (hiff "").mpr (Or.inr hmemUID)
    obtain ⟨p, hpres, hpid⟩ := List.mem_map.mp hmem
    refine ⟨p, hpres, hpid, ?_⟩
    intro q hqres hqid
    exact List.inj_on_of_nodup_map hnd hqres hpres (by rw [hqid, hpid])

theorem getPods_empty_labels_witness :
    getContainerInfoFromLabels unlabeledContainer.Labels
        = { ContainerName := "", PodName := "", PodNamespace := "", PodUID := "" } ∧
      ∃ p, p ∈ ([⟨"", "", ""⟩] : List Pod) ∧ p.ID = ""
        ∧ ∀ q, q ∈ ([⟨"", "", ""⟩] : List Pod) → q.ID = "" → q = p :=
  getPods_empty_labels [] [unlabeledContainer] [⟨"", "", ""⟩] unlabeledContainer
    rfl (by simp) rfl rfl

/-- C10: the aggregated pod set does not depend on the contents of the
containers' metadata blocks: two container listings that agree on labels
and on metadata presence (but may differ arbitrarily inside present
metadata) aggregate identically. -/
theorem getPods_metadata_independent (S : List PodSandbox) (C₁ C₂ : List Container)
    (h : List.Forall₂ (fun c₁ c₂ => c₁.Labels = c₂.Labels
      ∧ c₁.Metadata.isSome = c₂.Metadata.isSome) C₁ C₂) :
    _getPods (.ok S) (.ok C₁) = _getPods (.ok S) (.ok C₂) := by
  rw [getPods_ok, getPods_ok]
  apply congrArg (fun l => Except.ok (List.map Prod.snd l))
  apply seedFold_congr
  refine h.imp ?_
  rintro c₁ c₂ ⟨hl, hm⟩
  cases h₁ : c₁.Metadata with
  | none =>
    cases h₂ : c₂.Metadata with
    | none => simp [containerPod, h₁, h₂]
    | some md₂ => rw [h₁, h₂] at hm; simp at hm
  | some md₁ =>
    cases h₂ : c₂.Metadata with
    | none => rw [h₁, h₂] at hm; simp at hm
    | some md₂ => simp [containerPod, h₁, h₂, hl]

theorem getPods_metadata_independent_witness :
    _getPods (.ok [sampleSandbox]) (.ok [metadataVariantA])
      = _getPods (.ok [sampleSandbox]) (.ok [metadataVariantB]) :=
  getPods_metadata_independent [sampleSandbox] [metadataVariantA] [metadataVariantB]
    (List.Forall₂.cons ⟨rfl, rfl⟩ List.Forall₂.nil)

/-! ## Claims about `_getPodStatus` and client setup -/

theorem sandboxStatusLoop_attempts (rs : RuntimeClient) (l : List Container) :
    sandboxStatusLoop rs l = l.map Container.Id := by
  induction l with
  | nil => rfl
  | cons c t ih =>
    unfold sandboxStatusLoop
    cases getPodSandboxStatus rs c.Id <;> simp [ih]

theorem containerStatusLoop_attempts (rs : RuntimeClient) (l : List Container) :
    containerStatusLoop rs l = l.map Container.Id := by
  induction l with
  | nil => rfl
  | cons c t ih =>
    unfold containerStatusLoop
    cases getContainerStatus rs c.Id <;> simp [ih]

/-- Normal form of `_getPodStatus`: when the (container) listing fails
the error is returned, otherwise every listed entity's status fetch is
attempted in both loops and the call succeeds. -/
theorem getPodStatus_eq (rs : RuntimeClient) (uid name ns : String) :
    _getPodStatus rs uid name ns
      = match getKubeletContainers rs uid true with
        | .error err => .error err
        | .ok l => .ok { sandboxStatusFetches := l.map Container.Id
                         containerStatusFetches := l.map Container.Id } := by
  unfold _getPodStatus
  cases h : getKubeletContainers rs uid true with
  | error err => rfl
  | ok l =>
    cases l with
    | nil => rfl
    | cons c t => simp [sandboxStatusLoop_attempts, containerStatusLoop_attempts]

/-- C4: whenever the step-1 listing calls of `_getPodStatus` succeed,
the call returns successfully for arbitrary status-fetch outcomes: the
status of every listed entity is attempted, in listing order, in both
loops, no matter which individual status fetches fail, and no per-entity
status failure is ever returned as an error. -/
theorem getPodStatus_partial_failure (rs : RuntimeClient) (uid name ns : String)
    (listed : List Container) (h : getKubeletContainers rs uid true = .ok listed) :
    _getPodStatus rs uid name ns
      = .ok { sandboxStatusFetches := listed.map Container.Id
              containerStatusFetches := listed.map Container.Id } := by
  rw [getPodStatus_eq, h]

theorem getPodStatus_partial_failure_witness :
    _getPodStatus failingStatusClient "p1" "nginx" "default"
      = .ok { sandboxStatusFetches := ["ct1", "ct2"]
              containerStatusFetches := ["ct1", "ct2"] } :=
  getPodStatus_partial_failure failingStatusClient "p1" "nginx" "default"
    [{ Id := "ct1", Metadata := some { Name := "a", Attempt := 0 }, Labels := [] },
      { Id := "ct2", Metadata := some { Name := "b", Attempt := 0 }, Labels := [] }] rfl

/-- C3 (refuting the distinct-listings claim): in the source both step-1
listing calls of `_getPodStatus` invoke `getKubeletContainers`, so the
sandbox listing is never consulted: replacing a runtime's
`ListPodSandbox` behaviour arbitrarily never changes `_getPodStatus`,
and a runtime whose sandbox listing always fails still reports
successfully.  Under the claim, the first call would target the sandbox
listing, whose failure would have to be returned. -/
theorem getPodStatus_ignores_sandbox_listing :
    (∀ (rs : RuntimeClient) (lps : PodSandboxFilter → Except String (List PodSandbox))
      (uid name ns : String),
      _getPodStatus { rs with ListPodSandbox := lps } uid name ns
        = _getPodStatus rs uid name ns) ∧
    (getKubeletSandboxs brokenSandboxClient "p1" true = .error "sandbox rpc down" ∧
      _getPodStatus brokenSandboxClient "p1" "nginx" "default"
        = .ok { sandboxStatusFetches := ["ct1"], containerStatusFetches := ["ct1"] }) := by
  refine ⟨?_, rfl, rfl⟩
  intro rs lps uid name ns
  rw [getPodStatus_eq, getPodStatus_eq]
  have h : getKubeletContainers { rs with ListPodSandbox := lps } uid true
      = getKubeletContainers rs uid true := rfl
  rw [h]

/-- C9: an endpoint parsed to a non-"unix" scheme is rejected at setup
with the configuration error — by `getAddressAndDialer` and hence by
`newRuntimeServiceClient`, which produces no client for any dialer — and
a "unix"-scheme endpoint resolves to its URL path as the dial
address. -/
theorem getAddressAndDialer_scheme (u : URL)
    (dialContext : String → Except String GrpcConn) (connectionTimeout : Nat) :
    (u.Scheme ≠ unixProtocol →
      getAddressAndDialer (.ok u) = .error "only support unix socket endpoint" ∧
        newRuntimeServiceClient (.ok u) dialContext connectionTimeout
          = .error "only support unix socket endpoint") ∧
    (u.Scheme = unixProtocol → getAddressAndDialer (.ok u) = .ok u.Path) := by
  have hred : getAddressAndDialer (.ok u)
      = if u.Scheme ≠ unixProtocol then .error "only support unix socket endpoint"
        else .ok u.Path := rfl
  constructor
  · intro hne
    have h₁ : getAddressAndDialer (.ok u) = .error "only support unix socket endpoint" := by
      rw [hred, if_pos hne]
    refine ⟨h₁, ?_⟩
    unfold newRuntimeServiceClient
    rw [h₁]
  · intro he
    rw [hred, if_neg (by simp [he])]

theorem getAddressAndDialer_scheme_witness :
    (getAddressAndDialer (.ok { Scheme := "tcp", Path := "/run/a.sock" })
        = .error "only support unix socket endpoint" ∧
      newRuntimeServiceClient (.ok { Scheme := "tcp", Path := "/run/a.sock" })
          (fun a => .ok { addr := a }) 120 = .error "only support unix socket endpoint") ∧
    getAddressAndDialer (.ok { Scheme := "unix", Path := "/var/run/dockershim.sock" })
      = .ok "/var/run/dockershim.sock" :=
  ⟨(getAddressAndDialer_scheme { Scheme := "tcp", Path := "/run/a.sock" }
      (fun a => .ok { addr := a }) 120).1 (by decide),
    (getAddressAndDialer_scheme { Scheme := "unix", Path := "/var/run/dockershim.sock" }
      (fun a => .ok { addr := a }) 120).2 rfl⟩

end Oncepleg
